import Mathlib

/-!
Shallow embedding of the bridge-v2 backend (CoinFabrik/bridge-v2):
the block-scan extrinsic matcher of `src/api/src/app.ts` (`getGlitchInfo`),
the unconditional last-operation extraction used by `GET /api/transactionInfo`,
and the two HTTP handlers of the newer server variant (`src/unnamed/part_000`),
together with theorems settling the frozen claims about them.
-/

namespace BridgeV2

/-- An Operation (extrinsic) of a fetched Block, as the handlers see it after
decoding: a method identity `sect`.`method`, the stringified argument list
(`args.map (a => a.toString())` in the source), the hex-rendered hash
(`ex.hash.toHex()`), and the signedness flag (used only for logging). -/
structure Operation where
  sect : String
  method : String
  args : List String
  hash : String
  isSigned : Bool
deriving DecidableEq, Repr

/-- Result pair of a scan: the mutable `netAmount` / `extrinsicHash` locals of
the source, `none` standing for JavaScript `undefined` (never assigned). -/
abbrev MatchResult := Option String × Option String

/-- The body of the filtered scan of `getGlitchInfo` (app.ts lines 32-65),
as a recursion over the remaining extrinsics carrying the two mutable locals.
Per iteration: if `section === "balances" && method === "transfer"`, the code
evaluates `args[0].toString()`; on an empty argument list this is a TypeError
(`.error ()` here).  When the first argument equals the target the two locals
are overwritten with `x.at(1)` (that is `args.get? 1`) and the hash; there is
no early exit, so a later match overwrites an earlier one. -/
def scanFrom (target : String) (acc : MatchResult) : List Operation → Except Unit MatchResult
  | [] => .ok acc
  | ex :: rest =>
    if ex.sect == "balances" && ex.method == "transfer" then
      match ex.args with
      | [] => .error ()
      | a0 :: _ =>
        if a0 == target then scanFrom target (ex.args.get? 1, some ex.hash) rest
        else scanFrom target acc rest
    else scanFrom target acc rest

/-- The filtered Matcher: the scan loop of `getGlitchInfo` (app.ts lines
29-66) applied to a fetched Block's extrinsic list, with both locals starting
out unassigned.  The block fetch itself (lines 19-27) is outside: the claims
about the Matcher take the Block as given. -/
def getGlitchInfoScan (exs : List Operation) (target : String) : Except Unit MatchResult :=
  scanFrom target (none, none) exs

/-- The transfer-method-and-recipient predicate of the scan: section
`"balances"`, method `"transfer"`, and first stringified argument equal to the
target address. -/
def matchesB (target : String) (ex : Operation) : Bool :=
  ex.sect == "balances" && ex.method == "transfer" && ex.args.head? == some target

/-- An Operation on which the scan step cannot throw: either it is not a
`balances.transfer`, or its argument list is non-empty (so `args[0]` exists). -/
def safeOp (ex : Operation) : Bool :=
  !(ex.sect == "balances" && ex.method == "transfer") || !ex.args.isEmpty

/-- Reference recursion mirroring `scanFrom` on the success path: the value the
two locals hold after scanning, starting from `acc`. -/
def lastMatchAcc (target : String) (acc : MatchResult) : List Operation → MatchResult
  | [] => acc
  | ex :: rest =>
    if matchesB target ex then lastMatchAcc target (ex.args.get? 1, some ex.hash) rest
    else lastMatchAcc target acc rest

/-- The unconditional extraction loop of `GET /api/transactionInfo` (part_000
lines 164-192, app.ts lines 162-189): every iteration overwrites both locals
with `x.at(1)` and the hash, with no predicate, so the last Operation wins. -/
def scanAllFrom (acc : MatchResult) : List Operation → MatchResult
  | [] => acc
  | ex :: rest => scanAllFrom (ex.args.get? 1, some ex.hash) rest

/-- The unconditional variant, both locals starting out unassigned. -/
def scanAll (exs : List Operation) : MatchResult :=
  scanAllFrom (none, none) exs

/-- A persisted TransactionRecord (`Tx` entity).  The settlement fields
`net_amount` / `extrinsic_hash` are nullable strings: `none` is an absent
(NULL / undefined) value. -/
structure Tx where
  id : Nat
  from_eth_address : String
  to_glitch_address : String
  tx_eth_hash : String
  tx_glitch_hash : String
  net_amount : Option String
  extrinsic_hash : Option String
deriving DecidableEq, Repr

/-- JavaScript truthiness of a nullable string, as used by the guards
`tx.extrinsic_hash && tx.net_amount` and `!tx.extrinsic_hash &&
!tx.net_amount`: `undefined`/`null` and `""` are falsy. -/
def truthy : Option String → Bool
  | none => false
  | some s => s ≠ ""

/-- `txRepository.findOne (tx_eth_hash = key)`: the first stored record whose
`tx_eth_hash` equals the key, `none` when there is no such record. -/
def findOne (store : List Tx) (key : String) : Option Tx :=
  store.find? (fun t => t.tx_eth_hash == key)

/-- `txRepository.save t`: update-by-id of an existing record. -/
def saveTx (store : List Tx) (t : Tx) : List Tx :=
  store.map (fun u => if u.id == t.id then t else u)

/-- Outcome of the `GET /api/transactionInfo/:eth_tx` handler: an HTTP 200
JSON body `(netAmount, extrinsicHash)`, an HTTP 400 error payload, or an
uncaught runtime TypeError (the handler's promise rejects and no response is
produced). -/
inductive InfoResponse where
  | okJson (netAmount extrinsicHash : Option String)
  | badRequest (msg : String)
  | crash
deriving DecidableEq, Repr

/-- Full observable outcome of one `transactionInfo` request: the response,
the store after the request, and whether the chain block fetch
(`api.rpc.chain.getBlock`) was attempted. -/
structure InfoOutcome where
  resp : InfoResponse
  store : List Tx
  fetched : Bool
deriving DecidableEq, Repr

/-- The `GET /api/transactionInfo/:eth_tx` handler (part_000 lines 120-202,
identically app.ts lines 118-199).  `chain` is the node: for a block hash it
yields the Block's extrinsics, or `none` when `getBlock` throws.  Faithful
control flow: the code reads `tx.extrinsic_hash` BEFORE the `if (!tx)` check,
so a missing record is a TypeError on `undefined`, not the 400 branch (which
is unreachable dead code); when both settlement fields are truthy the stored
values are returned with no fetch; otherwise the block is fetched (fetch
failure is the 400 error branch), the unconditional extraction runs, both
fields are assigned from it and the record saved. -/
def transactionInfo (store : List Tx) (chain : String → Option (List Operation))
    (eth_tx : String) : InfoOutcome :=
  match findOne store eth_tx with
  | none => ⟨.crash, store, false⟩
  | some tx =>
    if truthy tx.extrinsic_hash && truthy tx.net_amount then
      ⟨.okJson tx.net_amount tx.extrinsic_hash, store, false⟩
    else
      match chain tx.tx_glitch_hash with
      | none => ⟨.badRequest "Error getting information from the block", store, true⟩
      | some exs =>
        let r := scanAll exs
        ⟨.okJson r.1 r.2, saveTx store { tx with net_amount := r.1, extrinsic_hash := r.2 }, true⟩

/-- Modelled from the spec: the `getGlitchInfo` helper that part_000 imports
from `./glitch` is not under src.  Per §4.1-4.2 it fetches the Block at
`tx_glitch_hash` and runs the filtered Matcher with `to_glitch_address` as
target; a fetch failure, like any thrown error (including the Matcher's own
TypeError), surfaces to the caller as a rejection (`none` here).  It also
returns a fee and a timestamp that are merged into the HTTP response only and
never persisted; no claim depends on their values, so they are omitted. -/
def glitchGetGlitchInfo (chain : String → Option (List Operation)) (tx : Tx) :
    Option MatchResult :=
  match chain tx.tx_glitch_hash with
  | none => none
  | some exs =>
    match getGlitchInfoScan exs tx.to_glitch_address with
    | .error _ => none
    | .ok r => some r

/-- Outcome of the per-record enrichment step of the history handler: the
record as stored afterwards, whether a save was issued, and whether the glitch
block fetch was attempted. -/
structure HistOut where
  tx : Tx
  saved : Bool
  fetched : Bool
deriving DecidableEq, Repr

/-- Per-record enrichment of `GET /api/transactionHistory/:wallet` (part_000
lines 67-95): `getGlitchInfo(tx, api)` is awaited UNCONDITIONALLY (so the
block fetch is attempted on every request, enriched or not); on success, both
settlement fields are written and the record saved only under the guard
`!tx.extrinsic_hash && !tx.net_amount`; on a thrown error the record is left
untouched (the catch only logs). -/
def historyEnrich (chain : String → Option (List Operation)) (tx : Tx) : HistOut :=
  match glitchGetGlitchInfo chain tx with
  | none => ⟨tx, false, true⟩
  | some r =>
    if !truthy tx.extrinsic_hash && !truthy tx.net_amount then
      ⟨{ tx with extrinsic_hash := r.2, net_amount := r.1 }, true, true⟩
    else ⟨tx, false, true⟩

/-- JavaScript `q || d` for an already-parsed numeric query parameter: the
default applies when the parameter is absent (part_000 lines 47-48). -/
def jsOrDefault (q : Option Nat) (d : Nat) : Nat :=
  match q with
  | none => d
  | some n => n

/-- The record selection of `GET /api/transactionHistory/:wallet` (part_000
lines 47-61): `find` with an OR where-array over `from_eth_address` /
`to_glitch_address`, `skip: limit * page`, `take: limit`, with `page`
defaulting to 0 and `limit` to 10. -/
def historyQuery (store : List Tx) (wallet : String) (page? limit? : Option Nat) : List Tx :=
  let page := jsOrDefault page? 0
  let limit := jsOrDefault limit? 10
  ((store.filter (fun t => t.from_eth_address == wallet || t.to_glitch_address == wallet)).drop
    (limit * page)).take limit

end BridgeV2

namespace BridgeV2

deriving instance DecidableEq for Except

/-! ### Helper lemmas about the two scan loops -/

/-- On a Block whose `balances.transfer` Operations all carry at least one
argument, the filtered scan never throws and computes `lastMatchAcc`. -/
theorem scanFrom_safe (target : String) (exs : List Operation) :
    ∀ acc : MatchResult, (∀ ex ∈ exs, safeOp ex = true) →
      scanFrom target acc exs = .ok (lastMatchAcc target acc exs) := by
  induction exs with
  | nil => intro acc _; rfl
  | cons ex rest ih =>
    intro acc h
    have hex : safeOp ex = true := h ex (by simp)
    have hrest : ∀ e ∈ rest, safeOp e = true := fun e he => h e (by simp [he])
    cases hbt : (ex.sect == "balances" && ex.method == "transfer") with
    | false =>
      have hm : matchesB target ex = false := by
        simp only [matchesB, Bool.and_eq_false_iff] at hbt ⊢
        tauto
      simp [scanFrom, lastMatchAcc, hbt, hm, ih _ hrest]
    | true =>
      have hargs : ex.args ≠ [] := by
        simp only [safeOp, hbt, Bool.not_true, Bool.false_or, Bool.not_eq_true'] at hex
        simpa [List.isEmpty_iff] using hex
      obtain ⟨a0, t, hat⟩ := List.exists_cons_of_ne_nil hargs
      cases ha : (a0 == target) with
      | true =>
        have hm : matchesB target ex = true := by
          simp [matchesB, hbt, hat, ha]
        simp [scanFrom, lastMatchAcc, hbt, hat, ha, hm, ih _ hrest]
      | false =>
        have hm : matchesB target ex = false := by
          simp [matchesB, hbt, hat]
          simpa using ha
        simp [scanFrom, lastMatchAcc, hbt, hat, ha, hm, ih _ hrest]

/-- The value the filtered scan's locals hold at the end is determined by the
LAST Operation of the Block satisfying the predicate (or the initial value
when none does). -/
theorem lastMatchAcc_getLast? (target : String) (exs : List Operation) :
    ∀ acc : MatchResult,
      lastMatchAcc target acc exs =
        match (exs.filter (matchesB target)).getLast? with
        | some m => (m.args.get? 1, some m.hash)
        | none => acc := by
  induction exs with
  | nil => intro acc; rfl
  | cons ex rest ih =>
    intro acc
    cases hm : matchesB target ex with
    | false => simp [lastMatchAcc, hm, List.filter_cons, ih]
    | true =>
      simp only [lastMatchAcc, hm, if_true, List.filter_cons]
      rw [ih]
      cases hl : (rest.filter (matchesB target)) with
      | nil => simp [hl]
      | cons b l =>
        have hsome : ((b :: l).getLast?).isSome = true := List.getLast?_isSome.mpr (by simp)
        obtain ⟨m, hm2⟩ := Option.isSome_iff_exists.mp hsome
        simp [hl, hm2]

/-- The unconditional extraction's locals end up holding the data of the LAST
Operation of the Block (or the initial value on an empty Block). -/
theorem scanAllFrom_getLast? (exs : List Operation) :
    ∀ acc : MatchResult,
      scanAllFrom acc exs =
        match exs.getLast? with
        | some m => (m.args.get? 1, some m.hash)
        | none => acc := by
  induction exs with
  | nil => intro acc; rfl
  | cons ex rest ih =>
    intro acc
    simp only [scanAllFrom]
    rw [ih]
    cases rest with
    | nil => simp
    | cons b l =>
      have hsome : ((b :: l).getLast?).isSome = true := List.getLast?_isSome.mpr (by simp)
      obtain ⟨m, hm2⟩ := Option.isSome_iff_exists.mp hsome
      simp [hm2, List.getLast?_cons_cons]

/-- An in-range index of a list yields a present optional element. -/
theorem get?_isSome_of_lt {α : Type} (l : List α) (n : Nat) (h : n < l.length) :
    (l.get? n).isSome = true := by
  rw [List.get?_eq_getElem?]
  cases hx : l[n]? with
  | none =>
    rw [List.getElem?_eq_none_iff] at hx
    omega
  | some a => rfl

/-- Every record of the store after a `save` is the saved record or an
original one. -/
theorem mem_saveTx {store : List Tx} {t u : Tx} (h : u ∈ saveTx store t) :
    u = t ∨ u ∈ store := by
  simp only [saveTx, List.mem_map] at h
  obtain ⟨v, hv, hu⟩ := h
  by_cases hid : (v.id == t.id) = true
  · left
    rw [← hu]
    simp [hid]
  · right
    rw [← hu]
    simp only [hid, if_false]
    exact hv

end BridgeV2

namespace BridgeV2

/-! ### Claims about the filtered Matcher and the unconditional variant -/

/-- C1 counterexample: on the spec's own scenario Block (a remark followed by
two `balances.transfer` Operations to `"0xAA"` with amounts `"100"` and
`"999"`), the filtered Matcher returns the data of the LAST matching
Operation (`"999"`, hash `"h2"`), not of the first (`"100"`, hash `"h1"`):
the loop has no early exit and a later match overwrites the locals. -/
theorem c1_first_match_counterexample :
    getGlitchInfoScan
        [⟨"system", "remark", [], "h0", false⟩,
         ⟨"balances", "transfer", ["0xAA", "100"], "h1", true⟩,
         ⟨"balances", "transfer", ["0xAA", "999"], "h2", true⟩] "0xAA" =
      .ok (some "999", some "h2") ∧
    getGlitchInfoScan
        [⟨"system", "remark", [], "h0", false⟩,
         ⟨"balances", "transfer", ["0xAA", "100"], "h1", true⟩,
         ⟨"balances", "transfer", ["0xAA", "999"], "h2", true⟩] "0xAA" ≠
      .ok (some "100", some "h1") := by
  constructor
  · rfl
  · decide

/-- C1 (amended): for every Block whose `balances.transfer` Operations all
have at least one argument, and every target address, the filtered Matcher
returns the netAmount (second stringified argument) and extrinsicHash of the
LAST Operation in the Block's order satisfying the
transfer-method-and-recipient predicate. -/
theorem c1_last_match_wins (target : String) (exs : List Operation) (m : Operation)
    (hsafe : ∀ ex ∈ exs, safeOp ex = true)
    (hm : (exs.filter (matchesB target)).getLast? = some m) :
    getGlitchInfoScan exs target = .ok (m.args.get? 1, some m.hash) := by
  rw [getGlitchInfoScan, scanFrom_safe target exs _ hsafe, lastMatchAcc_getLast?, hm]

/-- C1 witness: the amended theorem evaluated on the spec's scenario Block. -/
theorem c1_last_match_wins_witness :
    getGlitchInfoScan
        [⟨"system", "remark", [], "h0", false⟩,
         ⟨"balances", "transfer", ["0xAA", "100"], "h1", true⟩,
         ⟨"balances", "transfer", ["0xAA", "999"], "h2", true⟩] "0xAA" =
      .ok (some "999", some "h2") :=
  c1_last_match_wins "0xAA"
    [⟨"system", "remark", [], "h0", false⟩,
     ⟨"balances", "transfer", ["0xAA", "100"], "h1", true⟩,
     ⟨"balances", "transfer", ["0xAA", "999"], "h2", true⟩]
    ⟨"balances", "transfer", ["0xAA", "999"], "h2", true⟩
    (by decide) (by decide)

/-- C3 counterexample: a Block consisting of one `balances.transfer` Operation
with an empty argument list is a valid Block on which the filtered Matcher
throws (the source evaluates `args[0].toString()` on `undefined`), so the
Matcher does NOT terminate normally on every valid Block. -/
theorem c3_zero_args_throws :
    getGlitchInfoScan [⟨"balances", "transfer", [], "hb", false⟩] "0xCC" = .error () := by
  rfl

/-- C3 (amended): on every Block whose `balances.transfer` Operations all
carry at least one argument, the filtered Matcher terminates normally with a
result pair; the pair is either both-absent, or carries a present
extrinsicHash (the netAmount can still be absent when the matching transfer
has fewer than two arguments). -/
theorem c3_safe_blocks_total (target : String) (exs : List Operation)
    (hsafe : ∀ ex ∈ exs, safeOp ex = true) :
    ∃ r : MatchResult, getGlitchInfoScan exs target = .ok r ∧
      (r = (none, none) ∨ r.2.isSome = true) := by
  refine ⟨lastMatchAcc target (none, none) exs, scanFrom_safe target exs _ hsafe, ?_⟩
  rw [lastMatchAcc_getLast?]
  cases hl : (exs.filter (matchesB target)).getLast? with
  | none => left; rfl
  | some m => right; rfl

/-- C3 witness: the amended theorem evaluated on a concrete safe Block. -/
theorem c3_safe_blocks_total_witness :
    ∃ r : MatchResult,
      getGlitchInfoScan [⟨"system", "remark", [], "h0", false⟩] "0xAA" = .ok r ∧
        (r = (none, none) ∨ r.2.isSome = true) :=
  c3_safe_blocks_total "0xAA" [⟨"system", "remark", [], "h0", false⟩] (by decide)

/-- C6 (confirmed): for every non-empty Block, the unconditional-extraction
variant returns the last Operation's second stringified argument (absent when
that Operation has fewer than two arguments) as netAmount and that
Operation's hash as extrinsicHash, regardless of its section, method or
arguments. -/
theorem c6_unconditional_last (exs : List Operation) (m : Operation)
    (hm : exs.getLast? = some m) :
    scanAll exs = (m.args.get? 1, some m.hash) := by
  rw [scanAll, scanAllFrom_getLast?, hm]

/-- C6 witness: the unconditional variant on a concrete two-Operation Block
returns the data of its last Operation. -/
theorem c6_unconditional_last_witness :
    scanAll
        [⟨"balances", "transfer", ["0xAA", "100"], "h1", true⟩,
         ⟨"system", "remark", ["x", "y"], "h9", false⟩] =
      (some "y", some "h9") :=
  c6_unconditional_last
    [⟨"balances", "transfer", ["0xAA", "100"], "h1", true⟩,
     ⟨"system", "remark", ["x", "y"], "h9", false⟩]
    ⟨"system", "remark", ["x", "y"], "h9", false⟩ (by decide)

/-- C7 counterexample: a Block containing a zero-argument `balances.transfer`
Operation (which does NOT satisfy the transfer-method-and-recipient
predicate, having no first argument) makes the filtered Matcher throw rather
than return both fields absent. -/
theorem c7_no_match_counterexample :
    (∀ ex ∈ [Operation.mk "balances" "transfer" [] "hz" false,
             Operation.mk "system" "remark" ["x"] "hy" false],
        matchesB "0xDD" ex = false) ∧
    getGlitchInfoScan
        [⟨"balances", "transfer", [], "hz", false⟩,
         ⟨"system", "remark", ["x"], "hy", false⟩] "0xDD" = .error () := by
  constructor
  · decide
  · rfl

/-- C7 (amended): for every Block whose `balances.transfer` Operations all
carry at least one argument, if no Operation satisfies the
transfer-method-and-recipient predicate then the filtered Matcher returns
normally with both netAmount and extrinsicHash absent. -/
theorem c7_no_match_absent (target : String) (exs : List Operation)
    (hsafe : ∀ ex ∈ exs, safeOp ex = true)
    (hnone : ∀ ex ∈ exs, matchesB target ex = false) :
    getGlitchInfoScan exs target = .ok (none, none) := by
  rw [getGlitchInfoScan, scanFrom_safe target exs _ hsafe, lastMatchAcc_getLast?]
  have hnil : exs.filter (matchesB target) = [] :=
    List.filter_eq_nil_iff.mpr (by simpa using hnone)
  rw [hnil]
  rfl

/-- C7 witness: the amended theorem evaluated on the spec's no-match scenario
(the scenario Block with target `"0xBB"`). -/
theorem c7_no_match_absent_witness :
    getGlitchInfoScan
        [⟨"system", "remark", [], "h0", false⟩,
         ⟨"balances", "transfer", ["0xAA", "100"], "h1", true⟩,
         ⟨"balances", "transfer", ["0xAA", "999"], "h2", true⟩] "0xBB" =
      .ok (none, none) :=
  c7_no_match_absent "0xBB"
    [⟨"system", "remark", [], "h0", false⟩,
     ⟨"balances", "transfer", ["0xAA", "100"], "h1", true⟩,
     ⟨"balances", "transfer", ["0xAA", "999"], "h2", true⟩]
    (by decide) (by decide)

end BridgeV2

namespace BridgeV2

/-! ### Claims about the two HTTP handlers -/

/-- C2 (code bug): when no stored record has `tx_eth_hash` equal to the
requested hash, `findOne` yields `undefined` and the handler dereferences
`tx.extrinsic_hash` BEFORE its `if (!tx)` guard, so the request crashes with
a TypeError and no HTTP 400 naming the missing hash is ever sent — the 400
branch the code itself contains is unreachable. -/
theorem c2_missing_record_crashes (store : List Tx)
    (chain : String → Option (List Operation)) (eth_tx : String)
    (h : findOne store eth_tx = none) :
    transactionInfo store chain eth_tx = ⟨.crash, store, false⟩ := by
  simp [transactionInfo, h]

/-- C2 witness: the handler evaluated on an empty store crashes. -/
theorem c2_missing_record_crashes_witness :
    transactionInfo [] (fun _ => none) "0xdead" = ⟨.crash, [], false⟩ :=
  c2_missing_record_crashes [] (fun _ => none) "0xdead" (by rfl)

/-- C9 (confirmed): for a stored record with both settlement fields absent
whose `tx_glitch_hash` resolves to a Block with zero Operations, the handler
responds HTTP 200 with both netAmount and extrinsicHash absent (not a 400)
and persists the record with both settlement fields still absent. -/
theorem c9_empty_block_ok (store : List Tx) (chain : String → Option (List Operation))
    (eth_tx : String) (tx : Tx) (hf : findOne store eth_tx = some tx)
    (_hna : tx.net_amount = none) (heh : tx.extrinsic_hash = none)
    (hb : chain tx.tx_glitch_hash = some []) :
    transactionInfo store chain eth_tx =
      ⟨.okJson none none,
       saveTx store { tx with net_amount := none, extrinsic_hash := none }, true⟩ := by
  simp [transactionInfo, hf, heh, truthy, hb, scanAll, scanAllFrom]

/-- C9 witness: a one-record store, both fields absent, a chain returning the
empty Block. -/
theorem c9_empty_block_ok_witness :
    transactionInfo [⟨1, "0xF", "gA", "0xE", "0xB", none, none⟩] (fun _ => some []) "0xE" =
      ⟨.okJson none none,
       saveTx [⟨1, "0xF", "gA", "0xE", "0xB", none, none⟩]
         { Tx.mk 1 "0xF" "gA" "0xE" "0xB" none none with
             net_amount := none, extrinsic_hash := none }, true⟩ :=
  c9_empty_block_ok [⟨1, "0xF", "gA", "0xE", "0xB", none, none⟩] (fun _ => some []) "0xE"
    ⟨1, "0xF", "gA", "0xE", "0xB", none, none⟩ (by rfl) (by rfl) (by rfl) (by rfl)

/-- C4 counterexample: the history handler of part_000 awaits
`getGlitchInfo(tx, api)` unconditionally, so even for a record whose
`net_amount` and `extrinsic_hash` are both already set the block fetch is
attempted — re-running enrichment via that endpoint DOES refetch the block. -/
theorem c4_history_refetches_counterexample :
    (historyEnrich (fun _ => some [])
        ⟨1, "0xF", "gA", "0xE", "0xB", some "100", some "h1"⟩).fetched = true := by
  rfl

/-- C4 (amended): for a record with both settlement fields set (non-empty),
re-running enrichment leaves both fields unchanged on either endpoint, and
the transactionInfo endpoint does not refetch the block; the
transactionHistory endpoint of part_000, however, always attempts the block
fetch (for its fee/timestamp response enrichment) while persisting nothing. -/
theorem c4_enriched_record_stable (store : List Tx)
    (chain chain2 : String → Option (List Operation)) (eth_tx : String) (tx tx2 : Tx)
    (hf : findOne store eth_tx = some tx)
    (h1 : truthy tx.net_amount = true) (h2 : truthy tx.extrinsic_hash = true)
    (g1 : truthy tx2.net_amount = true) (g2 : truthy tx2.extrinsic_hash = true) :
    transactionInfo store chain eth_tx =
        ⟨.okJson tx.net_amount tx.extrinsic_hash, store, false⟩ ∧
      (historyEnrich chain2 tx2).tx = tx2 ∧ (historyEnrich chain2 tx2).saved = false ∧
      (historyEnrich chain2 tx2).fetched = true := by
  refine ⟨by simp [transactionInfo, hf, h1, h2], ?_⟩
  unfold historyEnrich
  cases glitchGetGlitchInfo chain2 tx2 with
  | none => exact ⟨rfl, rfl, rfl⟩
  | some r => simp [g1, g2]

/-- C4 witness: the amended theorem on a concrete enriched record. -/
theorem c4_enriched_record_stable_witness :
    transactionInfo [⟨1, "0xF", "gA", "0xE", "0xB", some "100", some "h1"⟩]
        (fun _ => none) "0xE" =
        ⟨.okJson (some "100") (some "h1"),
         [⟨1, "0xF", "gA", "0xE", "0xB", some "100", some "h1"⟩], false⟩ ∧
      (historyEnrich (fun _ => none)
          ⟨2, "0xG", "gB", "0xE2", "0xB2", some "7", some "h7"⟩).tx =
        ⟨2, "0xG", "gB", "0xE2", "0xB2", some "7", some "h7"⟩ ∧
      (historyEnrich (fun _ => none)
          ⟨2, "0xG", "gB", "0xE2", "0xB2", some "7", some "h7"⟩).saved = false ∧
      (historyEnrich (fun _ => none)
          ⟨2, "0xG", "gB", "0xE2", "0xB2", some "7", some "h7"⟩).fetched = true :=
  c4_enriched_record_stable [⟨1, "0xF", "gA", "0xE", "0xB", some "100", some "h1"⟩]
    (fun _ => none) (fun _ => none) "0xE"
    ⟨1, "0xF", "gA", "0xE", "0xB", some "100", some "h1"⟩
    ⟨2, "0xG", "gB", "0xE2", "0xB2", some "7", some "h7"⟩
    (by rfl) (by decide) (by decide) (by decide) (by decide)

/-- C10 (confirmed): when exactly one of the two settlement fields is set,
the history handler's persist guard `!tx.extrinsic_hash && !tx.net_amount`
is false, so the record's stored fields are never changed and no save is
issued, although the block fetch is still attempted. -/
theorem c10_mixed_fields_not_persisted (chain : String → Option (List Operation)) (tx : Tx)
    (h : truthy tx.net_amount ≠ truthy tx.extrinsic_hash) :
    (historyEnrich chain tx).tx = tx ∧ (historyEnrich chain tx).saved = false ∧
      (historyEnrich chain tx).fetched = true := by
  unfold historyEnrich
  cases glitchGetGlitchInfo chain tx with
  | none => exact ⟨rfl, rfl, rfl⟩
  | some r =>
    have hg : (!truthy tx.extrinsic_hash && !truthy tx.net_amount) = false := by
      cases h1 : truthy tx.net_amount <;> cases h2 : truthy tx.extrinsic_hash <;> simp_all
    simp [hg]

/-- C10 witness: a record with only `net_amount` set is passed through
untouched and unsaved while the fetch is attempted. -/
theorem c10_mixed_fields_not_persisted_witness :
    (historyEnrich (fun _ => some []) ⟨3, "0xH", "gC", "0xE3", "0xB3", some "5", none⟩).tx =
        ⟨3, "0xH", "gC", "0xE3", "0xB3", some "5", none⟩ ∧
      (historyEnrich (fun _ => some [])
          ⟨3, "0xH", "gC", "0xE3", "0xB3", some "5", none⟩).saved = false ∧
      (historyEnrich (fun _ => some [])
          ⟨3, "0xH", "gC", "0xE3", "0xB3", some "5", none⟩).fetched = true :=
  c10_mixed_fields_not_persisted (fun _ => some [])
    ⟨3, "0xH", "gC", "0xE3", "0xB3", some "5", none⟩ (by decide)

/-- C8 (confirmed): the records served by the history endpoint are exactly
the stored records matching `from_eth_address == wallet OR to_glitch_address
== wallet`, with the `limit * page` first matches skipped and at most
`limit` returned, where an absent `limit` defaults to 10 and an absent
`page` to 0; stated as a full characterization of every index of the
response. -/
theorem c8_selection_pagination (store : List Tx) (wallet : String)
    (page? limit? : Option Nat) (i : Nat) :
    (historyQuery store wallet page? limit?).get? i =
      (if i < (match limit? with | none => 10 | some l => l) then
        (store.filter
            (fun t => t.from_eth_address == wallet || t.to_glitch_address == wallet)).get?
          ((match limit? with | none => 10 | some l => l) *
            (match page? with | none => 0 | some p => p) + i)
      else none) := by
  unfold historyQuery jsOrDefault
  cases page? <;> cases limit? <;>
    simp [List.get?_eq_getElem?, List.getElem?_take, List.getElem?_drop]

end BridgeV2

namespace BridgeV2

/-! ### C5: the both-absent-or-both-present invariant -/

/-- The settlement-field invariant of a record: `net_amount` and
`extrinsic_hash` are both absent or both present. -/
def txInv (t : Tx) : Prop :=
  t.net_amount.isSome = t.extrinsic_hash.isSome

/-- A fetched Block under which neither extraction produces a lone
extrinsicHash: its last Operation (the one the unconditional variant keeps)
and every `balances.transfer` Operation carry at least two arguments. -/
def blockOk (exs : List Operation) : Prop :=
  (∀ m, exs.getLast? = some m → 2 ≤ m.args.length) ∧
  (∀ ex ∈ exs, (ex.sect == "balances" && ex.method == "transfer") = true →
    2 ≤ ex.args.length)

/-- A chain all of whose fetched Blocks satisfy `blockOk`. -/
def chainOk (chain : String → Option (List Operation)) : Prop :=
  ∀ h exs, chain h = some exs → blockOk exs

/-- The unconditional extraction yields a both-absent-or-both-present pair
whenever the Block's last Operation has at least two arguments. -/
theorem scanAll_inv (exs : List Operation)
    (h : ∀ m, exs.getLast? = some m → 2 ≤ m.args.length) :
    ((scanAll exs).1).isSome = ((scanAll exs).2).isSome := by
  rw [scanAll, scanAllFrom_getLast?]
  cases hl : exs.getLast? with
  | none => rfl
  | some m =>
    have h2 := h m hl
    have hs := get?_isSome_of_lt m.args 1 (by omega)
    rw [List.get?_eq_getElem?] at hs
    simp [hs]

/-- The filtered Matcher yields a both-absent-or-both-present pair whenever
every `balances.transfer` Operation of the Block has at least two
arguments. -/
theorem scanOk_inv (target : String) (exs : List Operation) (r : MatchResult)
    (h2 : ∀ ex ∈ exs, (ex.sect == "balances" && ex.method == "transfer") = true →
      2 ≤ ex.args.length)
    (hscan : getGlitchInfoScan exs target = .ok r) :
    (r.1).isSome = (r.2).isSome := by
  have hsafe : ∀ ex ∈ exs, safeOp ex = true := by
    intro ex hex
    cases hbt : (ex.sect == "balances" && ex.method == "transfer") with
    | false => simp [safeOp, hbt]
    | true =>
      have hlen := h2 ex hex hbt
      have hne : ex.args ≠ [] := by
        intro hnil
        rw [hnil] at hlen
        simp at hlen
      simp [safeOp, hbt, List.isEmpty_iff, hne]
  rw [getGlitchInfoScan, scanFrom_safe target exs _ hsafe] at hscan
  injection hscan with hr
  subst hr
  rw [lastMatchAcc_getLast?]
  cases hl : (exs.filter (matchesB target)).getLast? with
  | none => rfl
  | some m =>
    have hmem : m ∈ exs.filter (matchesB target) := List.mem_of_getLast?_eq_some hl
    rw [List.mem_filter] at hmem
    have hbt : (m.sect == "balances" && m.method == "transfer") = true := by
      have hmb := hmem.2
      simp only [matchesB, Bool.and_eq_true] at hmb
      simp [hmb.1.1, hmb.1.2]
    have hlen := h2 m hmem.1 hbt
    have hs := get?_isSome_of_lt m.args 1 (by omega)
    rw [List.get?_eq_getElem?] at hs
    simp [hs]

/-- C5 counterexample: starting from a record with both settlement fields
absent, one `transactionInfo` request whose Block's only Operation has no
second argument persists the record with `extrinsic_hash` present and
`net_amount` absent, breaking the both-absent-or-both-present invariant. -/
theorem c5_atomic_pair_counterexample :
    (transactionInfo [⟨1, "0xF", "gA", "0xE", "0xB", none, none⟩]
        (fun _ => some [⟨"system", "remark", [], "h0", false⟩]) "0xE").store =
      [⟨1, "0xF", "gA", "0xE", "0xB", none, some "h0"⟩] ∧
    ((transactionInfo [⟨1, "0xF", "gA", "0xE", "0xB", none, none⟩]
        (fun _ => some [⟨"system", "remark", [], "h0", false⟩]) "0xE").store.all
      (fun t => t.net_amount.isSome == t.extrinsic_hash.isSome)) = false := by
  exact ⟨rfl, rfl⟩

/-- C5 (amended): both settlement fields are always written together as the
pair produced by one scan; provided every fetched Block's last Operation and
every `balances.transfer` Operation carry at least two arguments, both
handlers preserve the both-absent-or-both-present invariant of every stored
record, and a record with both fields already set (non-empty) is never
overwritten by either handler.  Without that proviso a scanned Operation
lacking a second argument persists a lone `extrinsic_hash`. -/
theorem c5_invariant_preserved (store : List Tx)
    (chain chain2 : String → Option (List Operation)) (eth_tx : String) (tx2 : Tx)
    (hc : chainOk chain) (hc2 : chainOk chain2)
    (hstore : ∀ t ∈ store, txInv t) (htx2 : txInv tx2) :
    (∀ t ∈ (transactionInfo store chain eth_tx).store, txInv t) ∧
    txInv (historyEnrich chain2 tx2).tx ∧
    (∀ tx, findOne store eth_tx = some tx → truthy tx.extrinsic_hash = true →
      truthy tx.net_amount = true → (transactionInfo store chain eth_tx).store = store) ∧
    (truthy tx2.extrinsic_hash = true → truthy tx2.net_amount = true →
      (historyEnrich chain2 tx2).tx = tx2) := by
  refine ⟨?_, ?_, ?_, ?_⟩
  · unfold transactionInfo
    cases hf : findOne store eth_tx with
    | none => exact hstore
    | some tx =>
      by_cases hg : (truthy tx.extrinsic_hash && truthy tx.net_amount) = true
      · simp only [hg, if_true]
        exact hstore
      · simp only [Bool.not_eq_true] at hg
        simp only [hg, Bool.false_eq_true, if_false]
        cases hb : chain tx.tx_glitch_hash with
        | none => exact hstore
        | some exs =>
          intro t ht
          rcases mem_saveTx ht with rfl | hold
          · exact scanAll_inv exs (hc _ _ hb).1
          · exact hstore t hold
  · unfold historyEnrich
    cases hgi : glitchGetGlitchInfo chain2 tx2 with
    | none => exact htx2
    | some r =>
      by_cases hg : (!truthy tx2.extrinsic_hash && !truthy tx2.net_amount) = true
      · simp only [hg, if_true]
        unfold glitchGetGlitchInfo at hgi
        cases hcb : chain2 tx2.tx_glitch_hash with
        | none => simp [hcb] at hgi
        | some exs =>
          simp only [hcb] at hgi
          cases hsc : getGlitchInfoScan exs tx2.to_glitch_address with
          | error e => simp [hsc] at hgi
          | ok r2 =>
            simp only [hsc, Option.some.injEq] at hgi
            subst hgi
            exact scanOk_inv tx2.to_glitch_address exs r2 ((hc2 _ _ hcb).2) hsc
      · simp only [Bool.not_eq_true] at hg
        simp only [hg, Bool.false_eq_true, if_false]
        exact htx2
  · intro tx hf h1 h2
    simp [transactionInfo, hf, h1, h2]
  · intro h1 h2
    unfold historyEnrich
    cases glitchGetGlitchInfo chain2 tx2 with
    | none => rfl
    | some r => simp [h1, h2]

/-- C5 witness: the amended theorem instantiated at an empty store, a chain
returning no blocks, and an unenriched record. -/
theorem c5_invariant_preserved_witness :
    (∀ t ∈ (transactionInfo [] (fun _ => none) "0xE").store, txInv t) ∧
    txInv (historyEnrich (fun _ => none) ⟨1, "0xF", "gA", "0xE", "0xB", none, none⟩).tx ∧
    (∀ tx, findOne [] "0xE" = some tx → truthy tx.extrinsic_hash = true →
      truthy tx.net_amount = true → (transactionInfo [] (fun _ => none) "0xE").store = []) ∧
    (truthy (Tx.mk 1 "0xF" "gA" "0xE" "0xB" none none).extrinsic_hash = true →
      truthy (Tx.mk 1 "0xF" "gA" "0xE" "0xB" none none).net_amount = true →
      (historyEnrich (fun _ => none) ⟨1, "0xF", "gA", "0xE", "0xB", none, none⟩).tx =
        ⟨1, "0xF", "gA", "0xE", "0xB", none, none⟩) :=
  c5_invariant_preserved [] (fun _ => none) (fun _ => none) "0xE"
    ⟨1, "0xF", "gA", "0xE", "0xB", none, none⟩
    (fun _ _ hx => Option.noConfusion hx) (fun _ _ hx => Option.noConfusion hx)
    (fun t ht => absurd ht (List.not_mem_nil t)) rfl

end BridgeV2
